import Mathlib

/-!
Shallow embedding of the `wikifmt` linter from the lintkit repository
(package `pkg/wikifmt`, source in the repository's wikifmt implementation
file) together with the SARIF report model from `pkg/sarif`.

Strings are modelled by Lean strings; the Go byte-position string
functions are re-implemented over the underlying character lists so that
everything evaluates by kernel reduction.  Go's `strings.TrimSpace`
trims Unicode whitespace; the documents handled here are ASCII, where it
agrees with trimming on `Char.isWhitespace`.  Go's `strings.ToLower` is
likewise modelled by `Char.toLower`, which agrees on ASCII.
-/

namespace Sarif

/-- Region models `sarif.Region` (only `StartLine` is ever set by wikifmt). -/
structure Region where
  StartLine : Nat
deriving DecidableEq

/-- ArtifactLocation models `sarif.ArtifactLocation`. -/
structure ArtifactLocation where
  URI : String
deriving DecidableEq

/-- PhysicalLocation models `sarif.PhysicalLocation`; the Go field is a
pointer `*Region`, modelled by `Option`. -/
structure PhysicalLocation where
  ArtifactLocation : ArtifactLocation
  Region : Option Region
deriving DecidableEq

/-- Location models `sarif.Location`. -/
structure Location where
  PhysicalLocation : PhysicalLocation
deriving DecidableEq

/-- Message models `sarif.Message`. -/
structure Message where
  Text : String
deriving DecidableEq

/-- Result models `sarif.Result`: one finding. -/
structure Result where
  RuleID : String
  Level : String
  Message : Message
  Locations : List Location
deriving DecidableEq

/-- Driver models `sarif.Driver` (wikifmt only sets `Name`). -/
structure Driver where
  Name : String
deriving DecidableEq

/-- Tool models `sarif.Tool`. -/
structure Tool where
  Driver : Driver
deriving DecidableEq

/-- Run models `sarif.Run`. -/
structure Run where
  Tool : Tool
  Results : List Result
deriving DecidableEq

/-- Log models `sarif.Log`; `NewLog` fills `Version` and `Schema` with the
constants below. -/
structure Log where
  Version : String
  Schema : String
  Runs : List Run
deriving DecidableEq

end Sarif

namespace Wikifmt

open Sarif

/-! ### Go string and path helpers -/

/-- trimChars models `strings.TrimSpace` on the character list. -/
def trimChars (cs : List Char) : List Char :=
  ((cs.dropWhile Char.isWhitespace).reverse.dropWhile Char.isWhitespace).reverse

/-- strTrim models `strings.TrimSpace`. -/
def strTrim (s : String) : String := String.mk (trimChars s.data)

/-- strLower models `strings.ToLower` (ASCII). -/
def strLower (s : String) : String := String.mk (s.data.map Char.toLower)

/-- strStartsWith models `strings.HasPrefix s p`. -/
def strStartsWith (s p : String) : Bool := p.data.isPrefixOf s.data

/-- strEndsWith models `strings.HasSuffix s sfx`. -/
def strEndsWith (s sfx : String) : Bool := sfx.data.isSuffixOf s.data

/-- strDropPfx models `strings.TrimPrefix p s` (note: argument order is
prefix first). -/
def strDropPfx (p s : String) : String :=
  if strStartsWith s p then String.mk (s.data.drop p.data.length) else s

/-- strDropSfx models `strings.TrimSuffix` (suffix argument first). -/
def strDropSfx (sfx s : String) : String :=
  if strEndsWith s sfx then String.mk (s.data.take (s.data.length - sfx.data.length)) else s

/-- splitOnChar models `strings.Split` with a one-character separator. -/
def splitOnChar (sep : Char) : List Char → List (List Char)
  | [] => [[]]
  | c :: rest =>
    if c = sep then [] :: splitOnChar sep rest
    else
      match splitOnChar sep rest with
      | [] => [[c]]
      | g :: gs => (c :: g) :: gs

/-- splitLines models `strings.Split content "\n"`. -/
def splitLines (s : String) : List String := (splitOnChar '\x0a' s.data).map String.mk

/-- splitFirst models the effect of `strings.SplitN s ":" 2`: `none` when
the separator is absent, otherwise the parts before and after its first
occurrence. -/
def splitFirst (sep : Char) (cs : List Char) : Option (List Char × List Char) :=
  match cs.dropWhile (fun c => c ≠ sep) with
  | [] => none
  | _ :: rest => some (cs.takeWhile (fun c => c ≠ sep), rest)

/-- dateMatch models `datePattern.MatchString` for the anchored regular
expression `^\d\x7b4\x7d-\d\x7b2\x7d-\d\x7b2\x7d$`: exactly four digits,
a dash, two digits, a dash, two digits.  It is a shape check only. -/
def dateMatch (s : String) : Bool :=
  match s.data with
  | [a, b, c, d, '-', e, f, '-', g, h] =>
    a.isDigit && b.isDigit && c.isDigit && d.isDigit &&
      e.isDigit && f.isDigit && g.isDigit && h.isDigit
  | _ => false

/-- collapseDashes models `regexp.MustCompile("-+").ReplaceAllString s "-"`:
every maximal run of dashes becomes a single dash. -/
def collapseDashes : List Char → List Char
  | [] => []
  | [c] => [c]
  | a :: b :: rest =>
    if a = '-' && b = '-' then collapseDashes (b :: rest)
    else a :: collapseDashes (b :: rest)

/-- replDash models the `strings.NewReplacer(" ", "-", "_", "-")` character
substitution. -/
def replDash (c : Char) : Char := if c = ' ' then '-' else if c = '_' then '-' else c

/-- slugify models `wikifmt.slugify`: lowercase, trim, spaces and
underscores to dashes, collapse dash runs. -/
def slugify (s : String) : String :=
  String.mk (collapseDashes ((strTrim (strLower s)).data.map replDash))

/-- goBase models `filepath.Base` for slash-separated paths. -/
def goBase (p : String) : String :=
  if p = "" then "." else
  let cs := p.data.reverse.dropWhile (fun c => c = '/')
  if cs = [] then "/" else String.mk (cs.takeWhile (fun c => c ≠ '/')).reverse

/-- goExt models `filepath.Ext`: the suffix starting at the final dot in
the final path element, or empty. -/
def goExt (p : String) : String :=
  let pre := p.data.reverse.takeWhile (fun c => c ≠ '/')
  if pre.any (fun c => c = '.') then
    String.mk ((pre.takeWhile (fun c => c ≠ '.')) ++ ['.']).reverse
  else ""

/-- stemOf is the filename stem `strings.TrimSuffix(filepath.Base p, filepath.Ext p)`
used by `buildIndex` and `resolveMarkdownLink`. -/
def stemOf (p : String) : String := strDropSfx (goExt p) (goBase p)

/-- cleanStep processes one path component of `filepath.Clean`
(acc holds the output components in reverse). -/
def cleanStep (rooted : Bool) (acc : List String) (comp : String) : List String :=
  if comp = "" ∨ comp = "." then acc
  else if comp = ".." then
    match acc with
    | c :: rest => if c = ".." then comp :: c :: rest else rest
    | [] => if rooted then [] else [".."]
  else comp :: acc

/-- goClean models `filepath.Clean` for slash-separated paths. -/
def goClean (p : String) : String :=
  if p = "" then "." else
  let rooted := strStartsWith p "/"
  let comps := (splitOnChar '/' p.data).map String.mk
  let out := (comps.foldl (cleanStep rooted) []).reverse
  let joined := String.intercalate "/" out
  if rooted then "/" ++ joined
  else if joined = "" then "." else joined

/-- goDir models `filepath.Dir`: everything up to the final slash, cleaned;
`.` when there is no slash. -/
def goDir (p : String) : String :=
  goClean (String.mk (p.data.reverse.dropWhile (fun c => c ≠ '/')).reverse)

/-- goJoin2 models `filepath.Join(a, b)` for two elements (empty elements
are dropped; the result is cleaned). -/
def goJoin2 (a b : String) : String :=
  if a = "" then goClean b else if b = "" then goClean a else goClean (a ++ "/" ++ b)

/-- goAbs models `filepath.Abs` given an explicit working directory `cwd`
standing for the process state `os.Getwd` consults. -/
def goAbs (cwd p : String) : String :=
  if strStartsWith p "/" then goClean p else goJoin2 cwd p

/-! ### Data model (`wikiFile`, `frontmatter`, `link`, `tagEntry`) -/

/-- valueNode models `wikifmt.valueNode[T]`. -/
structure valueNode (α : Type) where
  Value : α
  Line : Nat
  IsSet : Bool
deriving DecidableEq

/-- frontmatter models `wikifmt.frontmatter`; the Go zero value has empty
strings, empty list, line 0 and unset flags. -/
structure frontmatter where
  Title : valueNode String := ⟨"", 0, false⟩
  Date : valueNode String := ⟨"", 0, false⟩
  Tags : valueNode (List String) := ⟨[], 0, false⟩
deriving DecidableEq

/-- emptyFM is Go's `frontmatter\x7b\x7d` zero value. -/
def emptyFM : frontmatter := {}

/-- link models `wikifmt.link`; the `Path` field exists in the source but
is never assigned. -/
structure link where
  Target : String
  Kind : String
  Line : Nat
  Path : String := ""
deriving DecidableEq

/-- tagEntry models `wikifmt.tagEntry`. -/
structure tagEntry where
  Value : String
  Line : Nat
deriving DecidableEq

/-- FmErr is the tagged form of the `error` values `parseFrontmatter` can
produce (`errMissingFrontmatter` and the four `fmt.Errorf` sites). -/
inductive FmErr where
  | missingFM : FmErr
  | listNoKey (line : Nat) : FmErr
  | unexpectedItem (line : Nat) : FmErr
  | invalidLine (line : Nat) : FmErr
  | dupKey (key : String) (line prev : Nat) : FmErr
deriving DecidableEq

/-- fmErrMsg renders an `FmErr` as the Go `error.Error()` string
(`%q` rendered as plain quoting; the keys involved need no escaping). -/
def fmErrMsg : FmErr → String
  | .missingFM => "missing frontmatter"
  | .listNoKey n => "invalid YAML list entry without key on line " ++ toString n
  | .unexpectedItem n => "unexpected list item on line " ++ toString n
  | .invalidLine n => "invalid frontmatter line " ++ toString n
  | .dupKey k n p =>
    "duplicate key \"" ++ k ++ "\" on line " ++ toString n ++
      " (previously on line " ++ toString p ++ ")"

/-- wikiFile models `wikifmt.wikiFile`. -/
structure wikiFile where
  Path : String
  Content : String
  Lines : List String
  Frontmatter : frontmatter
  FrontmatterErr : Option FmErr
  Links : List link
  Tags : List tagEntry
deriving DecidableEq

/-! ### Frontmatter extraction and parsing -/

/-- extractFM models the match of `frontmatterPattern`
(`(?s)^---\n(.*?)\n---\n?`) against the file content, expressed on the
line list: the first line must be exactly `---`, and the lazy capture
runs to the line before the next line that begins with `---` (which must
leave at least one captured line).  Returns the captured inner lines. -/
def extractFM (lines : List String) : Option (List String) :=
  match lines with
  | [] => none
  | l0 :: rest =>
    if l0 = "---" then
      match rest with
      | [] => none
      | r0 :: rrest =>
        match rrest.findIdx? (fun l => strStartsWith l "---") with
        | some j => some (r0 :: rrest.take j)
        | none => none
    else none

/-- FmState is the loop state of `parseFrontmatter`: the frontmatter
built so far, the `currentKey` tracker and the `seenKeys` map
(association list keyed by the key string, value the line number). -/
structure FmState where
  fm : frontmatter
  currentKey : String
  seenKeys : List (String × Nat)

/-- seenLookup models the `seenKeys[key]` map lookup. -/
def seenLookup (seen : List (String × Nat)) (key : String) : Option Nat :=
  match seen with
  | [] => none
  | (k, n) :: rest => if k = key then some n else seenLookup rest key

/-- fmApplyKey models the `switch key` statement of `parseFrontmatter`. -/
def fmApplyKey (fm : frontmatter) (key value : String) (lineNo : Nat) : frontmatter :=
  if key = "title" then
    if value ≠ "" then { fm with Title := ⟨value, lineNo, true⟩ } else fm
  else if key = "date" then
    if value ≠ "" then { fm with Date := ⟨value, lineNo, true⟩ } else fm
  else if key = "tags" then
    if value ≠ "" then
      { fm with Tags := ⟨fm.Tags.Value ++ [value], lineNo, true⟩ }
    else { fm with Tags := ⟨fm.Tags.Value, lineNo, fm.Tags.IsSet⟩ }
  else fm

/-- fmLoop models the `for i, line := range lines` loop of
`parseFrontmatter`; `i` is the index of the first remaining line, and
line numbers are `i + 2` to account for the opening delimiter.  On error
the Go function returns the partially built frontmatter together with
the error. -/
def fmLoop : List String → Nat → FmState → frontmatter × Option FmErr
  | [], _, st => (st.fm, none)
  | line :: rest, i, st =>
    let lineNo := i + 2
    let trimmed := strTrim line
    if trimmed = "" then fmLoop rest (i + 1) st
    else if strStartsWith trimmed "-" && !strStartsWith line "  - " then
      (st.fm, some (.listNoKey lineNo))
    else if strStartsWith line "  - " then
      if st.currentKey ≠ "tags" then (st.fm, some (.unexpectedItem lineNo))
      else
        let tag := strTrim (strDropPfx "  - " line)
        let fm := { st.fm with Tags := ⟨st.fm.Tags.Value ++ [tag], lineNo, true⟩ }
        fmLoop rest (i + 1) { st with fm := fm }
    else
      match splitFirst ':' line.data with
      | none => (st.fm, some (.invalidLine lineNo))
      | some (k0, v0) =>
        let key := strTrim (String.mk k0)
        let value := strTrim (String.mk v0)
        match seenLookup st.seenKeys key with
        | some prev => (st.fm, some (.dupKey key lineNo prev))
        | none =>
          fmLoop rest (i + 1)
            { fm := fmApplyKey st.fm key value lineNo,
              currentKey := key,
              seenKeys := st.seenKeys ++ [(key, lineNo)] }

/-- parseFrontmatter models `wikifmt.parseFrontmatter`, taking the file's
line list (the Go function takes the raw content; the two are related by
`strings.Split content "\n"`). -/
def parseFrontmatter (lines : List String) : frontmatter × Option FmErr :=
  match extractFM lines with
  | none => (emptyFM, some .missingFM)
  | some inner => fmLoop inner 0 ⟨emptyFM, "", []⟩

/-! ### Link extraction -/

/-- scanWikiF is `scanWiki` with explicit fuel so that it reduces by
structural recursion; every step consumes at least one input character,
so fuel equal to the input length never runs out. -/
def scanWikiF : Nat → List Char → List String
  | 0, _ => []
  | _ + 1, [] => []
  | fuel + 1, '[' :: '[' :: rest =>
    let cap := rest.takeWhile (fun c => c ≠ ']')
    (match rest.dropWhile (fun c => c ≠ ']') with
     | ']' :: ']' :: rest2 =>
       if cap.isEmpty then scanWikiF fuel ('[' :: rest)
       else String.mk cap :: scanWikiF fuel rest2
     | _ => scanWikiF fuel ('[' :: rest))
  | fuel + 1, _ :: rest => scanWikiF fuel rest

/-- scanWiki models `wikilinkPattern.FindAllStringSubmatch` for
the pattern of two open brackets, one or more characters other than a
closing bracket (captured), then two closing brackets: leftmost,
non-overlapping matches, returning the captures in order. -/
def scanWiki (cs : List Char) : List String := scanWikiF cs.length cs

/-- scanMdF is `scanMd` with explicit fuel (same device as `scanWikiF`). -/
def scanMdF : Nat → List Char → List String
  | 0, _ => []
  | _ + 1, [] => []
  | fuel + 1, '[' :: rest =>
    (match rest.dropWhile (fun c => c ≠ ']') with
     | ']' :: '(' :: rest2 =>
       let cap := rest2.takeWhile (fun c => c ≠ ')')
       (match rest2.dropWhile (fun c => c ≠ ')') with
        | ')' :: rest3 =>
          if cap.isEmpty then scanMdF fuel rest else String.mk cap :: scanMdF fuel rest3
        | _ => scanMdF fuel rest)
     | _ => scanMdF fuel rest)
  | fuel + 1, _ :: rest => scanMdF fuel rest

/-- scanMd models `mdlinkPattern.FindAllStringSubmatch` for the pattern
of an open bracket, any characters other than a closing bracket, a
closing bracket, an open parenthesis, one or more characters other than
a closing parenthesis (captured), then a closing parenthesis. -/
def scanMd (cs : List Char) : List String := scanMdF cs.length cs

/-- parseLinks models `wikifmt.parseLinks`: per line, wikilink captures
first, then markdown-link captures, with 1-indexed line numbers. -/
def parseLinks (lines : List String) : List link :=
  lines.enum.flatMap fun p =>
    let lineNo := p.1 + 1
    (scanWiki p.2.data).map (fun t => { Target := t, Kind := "wikilink", Line := lineNo }) ++
      (scanMd p.2.data).map (fun t => { Target := t, Kind := "markdown", Line := lineNo })

/-- parseFile models `wikifmt.parseFile` given the file content (the
`os.ReadFile` step lives in the filesystem abstraction of
`collectFiles`). -/
def parseFile (path content : String) : wikiFile :=
  let lines := splitLines content
  let pf := parseFrontmatter lines
  let links := parseLinks lines
  let tags :=
    if pf.1.Tags.IsSet then pf.1.Tags.Value.map (fun t => tagEntry.mk t pf.1.Tags.Line)
    else []
  { Path := path, Content := content, Lines := lines, Frontmatter := pf.1,
    FrontmatterErr := pf.2, Links := links, Tags := tags }

/-! ### Findings -/

/-- levelForRule models `wikifmt.levelForRule`. -/
def levelForRule (rule : String) : String :=
  if rule = "wiki-frontmatter-yaml" ∨ rule = "wiki-frontmatter-required" ∨
      rule = "wiki-date-format" ∨ rule = "wiki-link-broken" then "error"
  else if rule = "wiki-tag-case-variant" ∨ rule = "wiki-tag-orphan" then "warning"
  else "note"

/-- newResult models `wikifmt.newResult`. -/
def newResult (ruleID msg path : String) (line : Nat) : Result :=
  { RuleID := ruleID
    Level := levelForRule ruleID
    Message := ⟨msg⟩
    Locations := [⟨⟨⟨path⟩, if line > 0 then some ⟨line⟩ else none⟩⟩] }

/-- requiredResults is the required-key and date-format portion of
`wikifmt.checkFrontmatter` (the part after the error check). -/
def requiredResults (f : wikiFile) : List Result :=
  (if !f.Frontmatter.Title.IsSet then
    [newResult "wiki-frontmatter-required" "missing required frontmatter key: title" f.Path 1]
   else []) ++
  (if !f.Frontmatter.Date.IsSet then
    [newResult "wiki-frontmatter-required" "missing required frontmatter key: date" f.Path 1]
   else if !dateMatch f.Frontmatter.Date.Value then
    [newResult "wiki-date-format"
      ("date must be YYYY-MM-DD, got \"" ++ f.Frontmatter.Date.Value ++ "\"")
      f.Path f.Frontmatter.Date.Line]
   else []) ++
  (if !f.Frontmatter.Tags.IsSet then
    [newResult "wiki-frontmatter-required" "missing required frontmatter key: tags" f.Path 1]
   else [])

/-- checkFrontmatter models `wikifmt.checkFrontmatter`: a parse error
yields a YAML finding at line 1; only the `errMissingFrontmatter` case
continues to the required-key checks. -/
def checkFrontmatter (f : wikiFile) : List Result :=
  match f.FrontmatterErr with
  | some e =>
    let head := newResult "wiki-frontmatter-yaml"
      ("invalid frontmatter YAML: " ++ fmErrMsg e) f.Path 1
    if e = .missingFM then head :: requiredResults f else [head]
  | none => requiredResults f

/-! ### Index and link resolution -/

/-- GoMap models a Go `map[string]string` as an association list with
insert-overwrite; only lookup and insertion are used (value iteration in
`resolveMarkdownLink` is an existence check, so iteration order is
irrelevant there). -/
abbrev GoMap := List (String × String)

/-- mapInsert models `m[k] = v`. -/
def mapInsert (m : GoMap) (k v : String) : GoMap :=
  match m with
  | [] => [(k, v)]
  | (k0, v0) :: rest => if k0 = k then (k, v) :: rest else (k0, v0) :: mapInsert rest k v

/-- mapGet models `m[k]` returning `none` when absent. -/
def mapGet (m : GoMap) (k : String) : Option String :=
  match m with
  | [] => none
  | (k0, v0) :: rest => if k0 = k then some v0 else mapGet rest k

/-- mapHas models the `_, ok := m[k]` membership test. -/
def mapHas (m : GoMap) (k : String) : Bool := (mapGet m k).isSome

/-- buildIndex models `wikifmt.buildIndex`: for each file, the
lowercased filename stem and the slugified filename stem each map to its
path. -/
def buildIndex (files : List wikiFile) : GoMap :=
  files.foldl
    (fun index f =>
      mapInsert (mapInsert index (strLower (stemOf f.Path)) f.Path)
        (slugify (stemOf f.Path)) f.Path)
    []

/-- resolveWikiLink models `wikifmt.resolveWikiLink`. -/
def resolveWikiLink (target : String) (index : GoMap) : Bool :=
  let target := strTrim target
  if target = "" then false
  else if mapHas index (slugify target) then true
  else mapHas index (strLower target)

/-- sameFile models `wikifmt.sameFile`, with the working directory made
explicit (it backs `filepath.Abs`). -/
def sameFile (cwd a b : String) : Bool := goAbs cwd a = goAbs cwd b

/-- resolveMarkdownLink models `wikifmt.resolveMarkdownLink` with the
working directory made explicit. -/
def resolveMarkdownLink (cwd currentPath target : String) (index : GoMap) : Bool :=
  if target = "" then false
  else
    let cleaned := strDropPfx "/" target
    let dir := goDir currentPath
    let abs := goClean (goJoin2 dir cleaned)
    let key := strLower (stemOf abs)
    let slug := slugify (stemOf abs)
    if mapHas index key then true
    else if mapHas index slug then true
    else if strEndsWith abs ".md" then
      index.any (fun kv => sameFile cwd abs kv.2)
    else false

/-- checkLinks models `wikifmt.checkLinks`. -/
def checkLinks (cwd : String) (f : wikiFile) (index : GoMap) : List Result :=
  f.Links.flatMap fun l =>
    if l.Kind = "wikilink" then
      if !resolveWikiLink l.Target index then
        [newResult "wiki-link-broken" ("broken wikilink [[" ++ l.Target ++ "]]") f.Path l.Line]
      else []
    else if l.Kind = "markdown" then
      if !resolveMarkdownLink cwd f.Path l.Target index then
        [newResult "wiki-link-broken" ("broken markdown link " ++ l.Target) f.Path l.Line]
      else []
    else []

/-! ### Tag hygiene -/

/-- occurrence models the local `occurrence` struct of `wikifmt.checkTags`. -/
structure occurrence where
  file : String
  line : Nat
  raw : String
deriving DecidableEq

/-- allOccs lists every tag occurrence in file order, as the
`checkTags` aggregation loop visits them. -/
def allOccs (files : List wikiFile) : List occurrence :=
  files.flatMap fun f => f.Tags.map fun t => ⟨f.Path, t.Line, t.Value⟩

/-- occsOf is the group `tagOccurrences[norm]`: the occurrences whose
lowercased raw value is `norm`, in insertion order. -/
def occsOf (files : List wikiFile) (norm : String) : List occurrence :=
  (allOccs files).filter (fun o => strLower o.raw = norm)

/-- casingsOf is the set `casing[norm]` of distinct raw spellings in the
group, as a deduplicated list. -/
def casingsOf (files : List wikiFile) (norm : String) : List String :=
  ((occsOf files norm).map occurrence.raw).dedup

/-- orphanResult is the orphan-tag finding for a single-occurrence group. -/
def orphanResult (occ : occurrence) : Result :=
  newResult "wiki-tag-orphan" ("tag \"" ++ occ.raw ++ "\" is only used once") occ.file occ.line

/-- caseResult is the case-variant finding for one occurrence of a group
with several distinct spellings. -/
def caseResult (norm : String) (occ : occurrence) : Result :=
  newResult "wiki-tag-case-variant"
    ("tag \"" ++ occ.raw ++ "\" has case variants; prefer consistent casing for \"" ++ norm ++ "\"")
    occ.file occ.line

/-- tagGroupResults is the body of the `for norm, occs := range
tagOccurrences` loop of `wikifmt.checkTags` for one group. -/
def tagGroupResults (files : List wikiFile) (norm : String) : List Result :=
  (match occsOf files norm with
   | [occ] => [orphanResult occ]
   | _ => []) ++
  (if (casingsOf files norm).length > 1 then
    (occsOf files norm).map (caseResult norm)
   else [])

/-- normKeys is the key set of the `tagOccurrences` map, deduplicated in
first-insertion order. -/
def normKeys (files : List wikiFile) : List String :=
  ((allOccs files).map (fun o => strLower o.raw)).dedup

/-- validOrder says `order` is a possible Go map iteration order over the
`tagOccurrences` keys: each key exactly once, in any order.  Go
randomizes this order between runs. -/
abbrev validOrder (files : List wikiFile) (order : List String) : Prop :=
  order.Perm (normKeys files)

/-- checkTags models `wikifmt.checkTags`, parameterized by the map
iteration order (Go leaves it unspecified and randomizes it). -/
def checkTags (files : List wikiFile) (order : List String) : List Result :=
  order.flatMap (tagGroupResults files)

/-! ### Orchestration -/

/-- RootResult abstracts the filesystem for one root passed to
`wikifmt.collectFiles`: either the walk fails (covering
`filepath.WalkDir` callback errors and `os.ReadFile` failures, which
abort the run), or it yields the `(path, content)` pairs of every file
under the root in walk order. -/
abbrev RootResult := Except String (List (String × String))

/-- collectRoots models the root loop of `wikifmt.collectFiles`: the
first failing root aborts with its error; otherwise files whose
lowercased basename ends in `.md` are parsed and accumulated. -/
def collectRoots : List RootResult → Except String (List wikiFile)
  | [] => .ok []
  | .error e :: _ => .error e
  | .ok entries :: rest =>
    let fs := (entries.filter (fun pc => strEndsWith (strLower (goBase pc.1)) ".md")).map
      (fun pc => parseFile pc.1 pc.2)
    match collectRoots rest with
    | .error e => .error e
    | .ok more => .ok (fs ++ more)

/-- listLt is lexicographic order on character lists by code point; on
UTF-8 strings this agrees with Go's byte-wise string `<`. -/
def listLt : List Char → List Char → Bool
  | [], [] => false
  | [], _ :: _ => true
  | _ :: _, [] => false
  | a :: as, b :: bs =>
    if a.toNat < b.toNat then true
    else if b.toNat < a.toNat then false
    else listLt as bs

/-- strLt models Go's `<` on strings. -/
def strLt (a b : String) : Bool := listLt a.data b.data

/-- insertSorted is one insertion step of the path sort. -/
def insertSorted (f : wikiFile) : List wikiFile → List wikiFile
  | [] => [f]
  | g :: rest => if strLt f.Path g.Path then f :: g :: rest else g :: insertSorted f rest

/-- sortFiles models the `sort.Slice` by `Path` at the end of
`collectFiles` (insertion sort; Go's sort is unstable but agrees on the
distinct-path corpora considered here). -/
def sortFiles (files : List wikiFile) : List wikiFile :=
  files.foldl (fun acc f => insertSorted f acc) []

/-- collectFiles models `wikifmt.collectFiles`. -/
def collectFiles (roots : List RootResult) : Except String (List wikiFile) :=
  match collectRoots roots with
  | .error e => .error e
  | .ok files => .ok (sortFiles files)

/-- Run models `wikifmt.Run`, with the working directory and the
`checkTags` map-iteration order made explicit.  Frontmatter findings per
file come first, then tag findings, then link findings per file. -/
def Run (cwd : String) (roots : List RootResult) (order : List String) :
    Except String Log :=
  match collectFiles roots with
  | .error e => .error e
  | .ok files =>
    let index := buildIndex files
    let results :=
      (files.flatMap checkFrontmatter) ++ checkTags files order ++
        files.flatMap (fun f => checkLinks cwd f index)
    .ok
      { Version := "2.1.0"
        Schema := "https://json.schemastore.org/sarif-2.1.0.json"
        Runs := [{ Tool := ⟨⟨"lintkit-wikifmt"⟩⟩, Results := results }] }

/-- resultsOf extracts the findings of a run for comparison (empty on
error). -/
def resultsOf (r : Except String Log) : List Result :=
  match r with
  | .error _ => []
  | .ok log => log.Runs.flatMap Sarif.Run.Results

/-- firstErr is the error of the first failing root, if any: the one
`collectFiles` (and hence `Run`) propagates. -/
def firstErr : List RootResult → Option String
  | [] => none
  | .error e :: _ => some e
  | .ok _ :: rest => firstErr rest

/-- isWikiBroken recognizes the findings `checkLinks` emits for broken
wikilinks (as opposed to broken markdown links, which share the rule id
but have a message starting `broken markdown link`). -/
def isWikiBroken (r : Result) : Bool :=
  decide (r.RuleID = "wiki-link-broken") && strStartsWith r.Message.Text "broken wikilink"

/-- hardRules are the rule ids the spec calls hard-invariant violations. -/
def hardRules : List String :=
  ["wiki-frontmatter-yaml", "wiki-frontmatter-required", "wiki-date-format", "wiki-link-broken"]

/-- hygieneRules are the rule ids the spec calls hygiene issues. -/
def hygieneRules : List String := ["wiki-tag-orphan", "wiki-tag-case-variant"]

/-! ### Concrete demonstration inputs -/

/-- cDate is a document whose `date` value has the `YYYY-MM-DD` shape but
an out-of-range month and day. -/
def cDate : String := "---\ntitle: t\ndate: 2024-13-45\ntags: x\n---\nbody"

/-- cTagA tags its document `alpha`. -/
def cTagA : String := "---\ntitle: t\ndate: 2024-01-01\ntags: alpha\n---\n"

/-- cTagB tags its document `beta`. -/
def cTagB : String := "---\ntitle: t\ndate: 2024-01-01\ntags: beta\n---\n"

/-- rootsC2 is one root holding two documents with one orphan tag each. -/
def rootsC2 : List RootResult := [.ok [("b.md", cTagB), ("a.md", cTagA)]]

/-- filesC2 is the loaded form of `rootsC2` (sorted by path). -/
def filesC2 : List wikiFile := [parseFile "a.md" cTagA, parseFile "b.md" cTagB]

/-- cNoFM is a document with no frontmatter delimiter block at all. -/
def cNoFM : String := "just some text\nwith [[no]] frontmatter"

/-- cBadLine is a document whose frontmatter block has a line that is
neither blank, a list item, nor a key-value pair. -/
def cBadLine : String := "---\ntitle: t\nbad line\n---\n"

/-- cUrl is a document with an absolute-URL markdown link and an
anchor-only markdown link. -/
def cUrl : String := "[x](https://example.com/page) [y](#sec)"

/-- cList is a document whose tags arrive via a `tags:` key on line 4
followed by list items on lines 5 and 6. -/
def cList : String := "---\ntitle: t\ndate: 2024-01-01\ntags:\n  - alpha\n  - beta\n---\n"

/-- cWiki is a document holding one unresolved wikilink. -/
def cWiki : String := "[[nope]]"

/-- rootsC9 is one root holding `cWiki`. -/
def rootsC9 : List RootResult := [.ok [("a.md", cWiki)]]

/-- logC9 is the report `Run` produces over `rootsC9`. -/
def logC9 : Log :=
  (Run "/w" rootsC9 []).toOption.getD ⟨"", "", []⟩

/-- cGuide is a well-formed document used as a link target. -/
def cGuide : String := "---\ntitle: g\ndate: 2024-01-01\ntags: g\n---\n"

/-- filesC10 loads `cGuide` under `docs/guide.md`. -/
def filesC10 : List wikiFile := [parseFile "docs/guide.md" cGuide]

/-- runC9 is the single SARIF run inside `logC9`. -/
def runC9 : Sarif.Run := logC9.Runs.headD ⟨⟨⟨""⟩⟩, []⟩

/-- resC9 is the first finding of `runC9`. -/
def resC9 : Result := runC9.Results.headD ⟨"", "", ⟨""⟩, []⟩

/-- ruleOK says a finding carries one of the six wikifmt rule ids and
the level `levelForRule` assigns to its rule. -/
def ruleOK (r : Result) : Prop :=
  r.RuleID ∈ hardRules ++ hygieneRules ∧ r.Level = levelForRule r.RuleID

/-! ### Helper lemmas -/

/-- helper: the required-key block emits nothing matching `p` when the
date is set and shape-valid and `p` rejects the title and tags findings. -/
theorem countP_requiredResults_eq_zero (f : wikiFile)
    (hset : f.Frontmatter.Date.IsSet = true)
    (hmatch : dateMatch f.Frontmatter.Date.Value = true)
    (p : Result → Bool)
    (hti : p (newResult "wiki-frontmatter-required"
      "missing required frontmatter key: title" f.Path 1) = false)
    (hta : p (newResult "wiki-frontmatter-required"
      "missing required frontmatter key: tags" f.Path 1) = false) :
    (requiredResults f).countP p = 0 := by
  unfold requiredResults
  rw [hset, hmatch]
  cases hT : f.Frontmatter.Title.IsSet <;> cases hG : f.Frontmatter.Tags.IsSet <;>
    simp [List.countP_cons, List.countP_append, hti, hta]

/-- helper: evaluation of `checkFrontmatter` when parsing failed. -/
theorem checkFrontmatter_some (f : wikiFile) (e : FmErr)
    (hfe : f.FrontmatterErr = some e) :
    checkFrontmatter f =
      if e = FmErr.missingFM then
        newResult "wiki-frontmatter-yaml" ("invalid frontmatter YAML: " ++ fmErrMsg e)
            f.Path 1 :: requiredResults f
      else
        [newResult "wiki-frontmatter-yaml" ("invalid frontmatter YAML: " ++ fmErrMsg e)
          f.Path 1] := by
  unfold checkFrontmatter
  rw [hfe]

/-- helper: evaluation of `checkFrontmatter` when parsing succeeded. -/
theorem checkFrontmatter_none (f : wikiFile) (hfe : f.FrontmatterErr = none) :
    checkFrontmatter f = requiredResults f := by
  unfold checkFrontmatter
  rw [hfe]

end Wikifmt

namespace Wikifmt

open Sarif

/-- C1: a frontmatter `date` of `2024-13-45` matches the shape-only
`YYYY-MM-DD` pattern, so the scan emits neither a date-format finding
nor a missing-date finding for that document (amended from the claim,
which expected a date-format finding). -/
theorem C1_shape_only_date_accepted (f : wikiFile)
    (hset : f.Frontmatter.Date.IsSet = true)
    (hval : f.Frontmatter.Date.Value = "2024-13-45") :
    (checkFrontmatter f).countP (fun r => decide (r.RuleID = "wiki-date-format")) = 0 ∧
    (checkFrontmatter f).countP
      (fun r => decide (r.RuleID = "wiki-frontmatter-required" ∧
        r.Message.Text = "missing required frontmatter key: date")) = 0 := by
  have hmatch : dateMatch f.Frontmatter.Date.Value = true := by rw [hval]; rfl
  constructor
  · cases hfe : f.FrontmatterErr with
    | none =>
      rw [checkFrontmatter_none f hfe]
      exact countP_requiredResults_eq_zero f hset hmatch
        (fun r => decide (r.RuleID = "wiki-date-format")) rfl rfl
    | some e =>
      rw [checkFrontmatter_some f e hfe]
      by_cases he : e = FmErr.missingFM
      · rw [if_pos he, List.countP_cons,
          countP_requiredResults_eq_zero f hset hmatch
            (fun r => decide (r.RuleID = "wiki-date-format")) rfl rfl]
        rfl
      · rw [if_neg he]
        rfl
  · cases hfe : f.FrontmatterErr with
    | none =>
      rw [checkFrontmatter_none f hfe]
      exact countP_requiredResults_eq_zero f hset hmatch
        (fun r => decide (r.RuleID = "wiki-frontmatter-required" ∧
          r.Message.Text = "missing required frontmatter key: date")) rfl rfl
    | some e =>
      rw [checkFrontmatter_some f e hfe]
      by_cases he : e = FmErr.missingFM
      · rw [if_pos he, List.countP_cons,
          countP_requiredResults_eq_zero f hset hmatch
            (fun r => decide (r.RuleID = "wiki-frontmatter-required" ∧
              r.Message.Text = "missing required frontmatter key: date")) rfl rfl]
        rfl
      · rw [if_neg he]
        rfl

/-- C1 counterexample: for the concrete document `cDate` the date value
`2024-13-45` is parsed (line 3, present), yet no `wiki-date-format`
finding is produced, contradicting the claim that one is emitted. -/
theorem C1_counterexample :
    (parseFile "a.md" cDate).Frontmatter.Date = ⟨"2024-13-45", 3, true⟩ ∧
    (checkFrontmatter (parseFile "a.md" cDate)).countP
      (fun r => decide (r.RuleID = "wiki-date-format")) = 0 := by
  exact ⟨by decide, by decide⟩

/-- C1 witness: the amended statement holds for the concrete document. -/
theorem C1_witness :
    (parseFile "a.md" cDate).Frontmatter.Date.IsSet = true ∧
    (parseFile "a.md" cDate).Frontmatter.Date.Value = "2024-13-45" ∧
    ((checkFrontmatter (parseFile "a.md" cDate)).countP
        (fun r => decide (r.RuleID = "wiki-date-format")) = 0 ∧
      (checkFrontmatter (parseFile "a.md" cDate)).countP
        (fun r => decide (r.RuleID = "wiki-frontmatter-required" ∧
          r.Message.Text = "missing required frontmatter key: date")) = 0) :=
  ⟨by decide, by decide, C1_shape_only_date_accepted _ (by decide) (by decide)⟩

/-- C2: over the unchanged root set `rootsC2`, both `alpha, beta` and
`beta, alpha` are possible Go map iteration orders for the tag groups
(`checkTags` ranges over a Go map, whose iteration order is randomized
per run), and the two orders produce reports whose finding lists differ
in order (while agreeing as multisets), so two runs of the scan need not
be byte-identical. -/
theorem C2_tag_order_nondeterministic :
    collectFiles rootsC2 = Except.ok filesC2 ∧
    validOrder filesC2 ["alpha", "beta"] ∧
    validOrder filesC2 ["beta", "alpha"] ∧
    resultsOf (Run "/w" rootsC2 ["alpha", "beta"]) ≠
      resultsOf (Run "/w" rootsC2 ["beta", "alpha"]) ∧
    (resultsOf (Run "/w" rootsC2 ["alpha", "beta"])).Perm
      (resultsOf (Run "/w" rootsC2 ["beta", "alpha"])) :=
  ⟨rfl, by decide, by decide, by decide, by decide⟩

/-- C3: a document with no frontmatter block yields exactly the missing
frontmatter finding plus the three required-key findings, all at line 1;
any other parse error yields exactly the one YAML finding and skips the
required-key and date checks. -/
theorem C3_missing_vs_malformed (path content : String) :
    (extractFM (splitLines content) = none →
      checkFrontmatter (parseFile path content) =
        [newResult "wiki-frontmatter-yaml"
          "invalid frontmatter YAML: missing frontmatter" path 1,
         newResult "wiki-frontmatter-required"
          "missing required frontmatter key: title" path 1,
         newResult "wiki-frontmatter-required"
          "missing required frontmatter key: date" path 1,
         newResult "wiki-frontmatter-required"
          "missing required frontmatter key: tags" path 1]) ∧
    (∀ e, (parseFile path content).FrontmatterErr = some e → e ≠ FmErr.missingFM →
      checkFrontmatter (parseFile path content) =
        [newResult "wiki-frontmatter-yaml"
          ("invalid frontmatter YAML: " ++ fmErrMsg e) path 1]) := by
  constructor
  · intro h
    have hpf : parseFrontmatter (splitLines content) = (emptyFM, some FmErr.missingFM) := by
      unfold parseFrontmatter
      rw [h]
    have hfe : (parseFile path content).FrontmatterErr = some FmErr.missingFM := by
      show (parseFrontmatter (splitLines content)).2 = _
      rw [hpf]
    have hfm : (parseFile path content).Frontmatter = emptyFM := by
      show (parseFrontmatter (splitLines content)).1 = _
      rw [hpf]
    rw [checkFrontmatter_some (parseFile path content) FmErr.missingFM hfe, if_pos rfl]
    have hreq : requiredResults (parseFile path content) =
        [newResult "wiki-frontmatter-required"
          "missing required frontmatter key: title" path 1,
         newResult "wiki-frontmatter-required"
          "missing required frontmatter key: date" path 1,
         newResult "wiki-frontmatter-required"
          "missing required frontmatter key: tags" path 1] := by
      unfold requiredResults
      rw [hfm]
      rfl
    rw [hreq]
    rfl
  · intro e he hne
    rw [checkFrontmatter_some (parseFile path content) e he, if_neg hne]
    rfl

/-- C3 witness: both branches at concrete documents. -/
theorem C3_witness :
    (extractFM (splitLines cNoFM) = none ∧
      checkFrontmatter (parseFile "b.md" cNoFM) =
        [newResult "wiki-frontmatter-yaml"
          "invalid frontmatter YAML: missing frontmatter" "b.md" 1,
         newResult "wiki-frontmatter-required"
          "missing required frontmatter key: title" "b.md" 1,
         newResult "wiki-frontmatter-required"
          "missing required frontmatter key: date" "b.md" 1,
         newResult "wiki-frontmatter-required"
          "missing required frontmatter key: tags" "b.md" 1]) ∧
    ((parseFile "c.md" cBadLine).FrontmatterErr = some (FmErr.invalidLine 3) ∧
      checkFrontmatter (parseFile "c.md" cBadLine) =
        [newResult "wiki-frontmatter-yaml"
          "invalid frontmatter YAML: invalid frontmatter line 3" "c.md" 1]) :=
  ⟨⟨by decide, (C3_missing_vs_malformed "b.md" cNoFM).1 (by decide)⟩,
   ⟨by decide,
    (C3_missing_vs_malformed "c.md" cBadLine).2 (FmErr.invalidLine 3) (by decide) (by decide)⟩⟩

/-- C4 counterexample: the markdown-link extractor performs no filtering
of anchors or absolute URLs — both targets of `cUrl` are extracted as
links, and both yield broken-markdown-link findings rather than being
kept from the resolver, contradicting the claim. -/
theorem C4_counterexample :
    (parseFile "d.md" cUrl).Links =
      [{ Target := "https://example.com/page", Kind := "markdown", Line := 1 },
       { Target := "#sec", Kind := "markdown", Line := 1 }] ∧
    checkLinks "/w" (parseFile "d.md" cUrl) (buildIndex [parseFile "d.md" cUrl]) =
      [newResult "wiki-link-broken"
        "broken markdown link https://example.com/page" "d.md" 1,
       newResult "wiki-link-broken" "broken markdown link #sec" "d.md" 1] := by
  exact ⟨by decide, by decide⟩

/-- C4 amended: no target is filtered before link matching — every
extracted markdown link, scheme-bearing or anchor targets included, is
handed to the resolver, and an unresolved one yields a broken-link
finding. -/
theorem C4_all_targets_resolved (cwd : String) (f : wikiFile) (index : GoMap)
    (l : link) (hl : l ∈ f.Links) (hk : l.Kind = "markdown")
    (hr : resolveMarkdownLink cwd f.Path l.Target index = false) :
    newResult "wiki-link-broken" ("broken markdown link " ++ l.Target) f.Path l.Line ∈
      checkLinks cwd f index := by
  unfold checkLinks
  refine List.mem_flatMap.mpr ⟨l, hl, ?_⟩
  have hk2 : ¬l.Kind = "wikilink" := by rw [hk]; decide
  rw [if_neg hk2, if_pos hk, hr]
  simp

/-- C4 witness: the amended statement at the concrete URL link of `cUrl`. -/
theorem C4_witness :
    ({ Target := "https://example.com/page", Kind := "markdown", Line := 1 } : link) ∈
        (parseFile "d.md" cUrl).Links ∧
    resolveMarkdownLink "/w" (parseFile "d.md" cUrl).Path "https://example.com/page"
        (buildIndex [parseFile "d.md" cUrl]) = false ∧
    newResult "wiki-link-broken" "broken markdown link https://example.com/page"
        (parseFile "d.md" cUrl).Path 1 ∈
      checkLinks "/w" (parseFile "d.md" cUrl) (buildIndex [parseFile "d.md" cUrl]) :=
  ⟨by decide, by decide,
   C4_all_targets_resolved "/w" (parseFile "d.md" cUrl) (buildIndex [parseFile "d.md" cUrl])
     { Target := "https://example.com/page", Kind := "markdown", Line := 1 }
     (by decide) rfl (by decide)⟩

/-- C5 counterexample: in `cList` the first tag list item sits on line 5
and the second on line 6, yet the parsed tags node stores line 6 (the
last occurrence, because the parser overwrites the line on every item),
and both reported occurrences cite line 6 — contradicting the claim
that the first occurrence's line is carried. -/
theorem C5_counterexample :
    (parseFile "e.md" cList).FrontmatterErr = none ∧
    (splitLines cList).getD 4 "" = "  - alpha" ∧
    (splitLines cList).getD 5 "" = "  - beta" ∧
    (parseFile "e.md" cList).Frontmatter.Tags.Value = ["alpha", "beta"] ∧
    (parseFile "e.md" cList).Frontmatter.Tags.Line = 6 ∧
    (parseFile "e.md" cList).Tags = [⟨"alpha", 6⟩, ⟨"beta", 6⟩] := by
  exact ⟨by decide, by decide, by decide, by decide, by decide, by decide⟩

/-- C5 amended: every tag occurrence reported for a document cites the
single line stored in the parsed tags node, and that stored line is the
line of the last tags entry processed, not the first (line 6, not 5, in
`cList`). -/
theorem C5_tags_cite_stored_last_line (path content : String) (t : tagEntry)
    (ht : t ∈ (parseFile path content).Tags) :
    t.Line = (parseFile path content).Frontmatter.Tags.Line ∧
    (parseFile "e.md" cList).Frontmatter.Tags.Line = 6 := by
  refine ⟨?_, by decide⟩
  have h : t ∈
      (if (parseFrontmatter (splitLines content)).1.Tags.IsSet then
        (parseFrontmatter (splitLines content)).1.Tags.Value.map
          (fun v => tagEntry.mk v (parseFrontmatter (splitLines content)).1.Tags.Line)
      else []) := ht
  split at h
  · obtain ⟨v, hv, rfl⟩ := List.mem_map.mp h
    rfl
  · exact absurd h (List.not_mem_nil t)

/-- C5 witness: the amended statement at a concrete occurrence. -/
theorem C5_witness :
    (⟨"alpha", 6⟩ : tagEntry) ∈ (parseFile "e.md" cList).Tags ∧
    ((⟨"alpha", 6⟩ : tagEntry).Line = (parseFile "e.md" cList).Frontmatter.Tags.Line ∧
      (parseFile "e.md" cList).Frontmatter.Tags.Line = 6) :=
  ⟨by decide, C5_tags_cite_stored_last_line "e.md" cList ⟨"alpha", 6⟩ (by decide)⟩

/-- helper: the first failing root's error is the one `collectFiles`
returns. -/
theorem collectRoots_error (roots : List RootResult) (e : String)
    (h : firstErr roots = some e) : collectRoots roots = .error e := by
  induction roots with
  | nil => exact absurd h (by simp [firstErr])
  | cons r rest ih =>
    cases r with
    | error e0 =>
      have : e0 = e := by
        have h0 : some e0 = some e := h
        exact Option.some.inj h0
      subst this
      rfl
    | ok entries =>
      have h0 : firstErr rest = some e := h
      unfold collectRoots
      rw [ih h0]

/-- helper: with no failing root, `collectRoots` succeeds. -/
theorem collectRoots_ok (roots : List RootResult) (h : firstErr roots = none) :
    ∃ fs, collectRoots roots = .ok fs := by
  induction roots with
  | nil => exact ⟨[], rfl⟩
  | cons r rest ih =>
    cases r with
    | error e0 => exact absurd h (by simp [firstErr])
    | ok entries =>
      have h0 : firstErr rest = none := h
      obtain ⟨fs, hfs⟩ := ih h0
      refine ⟨(entries.filter (fun pc => strEndsWith (strLower (goBase pc.1)) ".md")).map
        (fun pc => parseFile pc.1 pc.2) ++ fs, ?_⟩
      unfold collectRoots
      rw [hfs]

/-- C6: a failing root aborts `Run` with that error and no report; when
every root succeeds, `Run` returns a report and no error. -/
theorem C6_fail_fast (cwd : String) (roots : List RootResult) (order : List String) :
    (∀ e, firstErr roots = some e → Run cwd roots order = .error e) ∧
    (firstErr roots = none → ∃ log, Run cwd roots order = .ok log) := by
  constructor
  · intro e h
    unfold Run collectFiles
    rw [collectRoots_error roots e h]
  · intro h
    obtain ⟨fs, hfs⟩ := collectRoots_ok roots h
    unfold Run collectFiles
    rw [hfs]
    exact ⟨_, rfl⟩

/-- C6 witness: both branches at concrete root sets. -/
theorem C6_witness :
    (firstErr [(.error "boom" : RootResult)] = some "boom" ∧
      Run "/w" [.error "boom"] [] = .error "boom") ∧
    (firstErr rootsC2 = none ∧ ∃ log, Run "/w" rootsC2 ["alpha", "beta"] = .ok log) :=
  ⟨⟨rfl, (C6_fail_fast "/w" [.error "boom"] []).1 "boom" rfl⟩,
   ⟨rfl, (C6_fail_fast "/w" rootsC2 ["alpha", "beta"]).2 rfl⟩⟩

/-- helper: lookup after insertion. -/
theorem mapGet_mapInsert (m : GoMap) (k v q : String) :
    mapGet (mapInsert m k v) q = if k = q then some v else mapGet m q := by
  induction m with
  | nil => rfl
  | cons kv rest ih =>
    obtain ⟨k0, v0⟩ := kv
    by_cases h0 : k0 = k
    · subst h0
      by_cases hq : k0 = q <;> simp [mapInsert, mapGet, hq]
    · by_cases hq : k0 = q
      · have hkq : ¬k = q := fun hh => h0 (hq.trans hh.symm)
        subst hq
        simp [mapInsert, mapGet, h0, hkq]
      · simp [mapInsert, mapGet, h0, hq, ih]

/-- helper: membership after insertion. -/
theorem mapHas_mapInsert (m : GoMap) (k v q : String) :
    mapHas (mapInsert m k v) q = (decide (k = q) || mapHas m q) := by
  unfold mapHas
  rw [mapGet_mapInsert]
  by_cases h : k = q <;> simp [h]

/-- helper: the fold of `buildIndex` over any accumulator. -/
theorem mapHas_buildIndex_loop (files : List wikiFile) (acc : GoMap) (q : String) :
    mapHas
      (files.foldl
        (fun index f =>
          mapInsert (mapInsert index (strLower (stemOf f.Path)) f.Path)
            (slugify (stemOf f.Path)) f.Path) acc) q = true ↔
      (mapHas acc q = true ∨
        ∃ g ∈ files, q = strLower (stemOf g.Path) ∨ q = slugify (stemOf g.Path)) := by
  induction files generalizing acc with
  | nil => simp
  | cons f fs ih =>
    rw [List.foldl_cons, ih, mapHas_mapInsert, mapHas_mapInsert]
    simp only [Bool.or_eq_true, decide_eq_true_eq, List.mem_cons]
    constructor
    · rintro ((hs | hl | hacc) | ⟨g, hg, hc⟩)
      · exact Or.inr ⟨f, Or.inl rfl, Or.inr hs.symm⟩
      · exact Or.inr ⟨f, Or.inl rfl, Or.inl hl.symm⟩
      · exact Or.inl hacc
      · exact Or.inr ⟨g, Or.inr hg, hc⟩
    · rintro (hacc | ⟨g, (rfl | hg), (hq | hq)⟩)
      · exact Or.inl (Or.inr (Or.inr hacc))
      · exact Or.inl (Or.inr (Or.inl hq.symm))
      · exact Or.inl (Or.inl hq.symm)
      · exact Or.inr ⟨g, hg, Or.inl hq⟩
      · exact Or.inr ⟨g, hg, Or.inr hq⟩

/-- helper: the Index contains exactly the lowercased and slugified
filename stems of the loaded documents. -/
theorem mapHas_buildIndex (files : List wikiFile) (q : String) :
    mapHas (buildIndex files) q = true ↔
      ∃ g ∈ files, q = strLower (stemOf g.Path) ∨ q = slugify (stemOf g.Path) := by
  unfold buildIndex
  rw [mapHas_buildIndex_loop]
  simp [mapHas, mapGet]

/-- helper: wikilink resolution characterized by the two index probes. -/
theorem resolveWikiLink_iff (target : String) (index : GoMap) :
    resolveWikiLink target index = true ↔
      (strTrim target ≠ "" ∧
        (mapHas index (slugify (strTrim target)) = true ∨
          mapHas index (strLower (strTrim target)) = true)) := by
  unfold resolveWikiLink
  by_cases h0 : strTrim target = ""
  · simp [h0]
  · rw [if_neg h0]
    by_cases h1 : mapHas index (slugify (strTrim target)) = true
    · simp [h0, h1]
    · simp [h0, h1]

/-- helper: a broken-wikilink finding satisfies `isWikiBroken`. -/
theorem isWikiBroken_wikiRes (t path : String) (line : Nat) :
    isWikiBroken
      (newResult "wiki-link-broken" ("broken wikilink [[" ++ t ++ "]]") path line) = true := rfl

/-- helper: a broken-markdown-link finding does not satisfy `isWikiBroken`. -/
theorem isWikiBroken_mdRes (t path : String) (line : Nat) :
    isWikiBroken
      (newResult "wiki-link-broken" ("broken markdown link " ++ t) path line) = false := rfl

/-- helper: the broken-wikilink findings of `checkLinks` are exactly one
per unresolved wikilink, in link order, at the link's line, naming the
literal target. -/
theorem checkLinks_filter_wiki (cwd : String) (f : wikiFile) (index : GoMap) :
    (checkLinks cwd f index).filter isWikiBroken =
      (f.Links.filter (fun l =>
        decide (l.Kind = "wikilink") && !resolveWikiLink l.Target index)).map
        (fun l => newResult "wiki-link-broken"
          ("broken wikilink [[" ++ l.Target ++ "]]") f.Path l.Line) := by
  unfold checkLinks
  generalize f.Links = ls
  induction ls with
  | nil => rfl
  | cons l ls ih =>
    rw [List.flatMap_cons, List.filter_append, ih, List.filter_cons]
    by_cases hw : l.Kind = "wikilink"
    · by_cases hr : resolveWikiLink l.Target index = true
      · simp [hw, hr]
      · have hr2 : resolveWikiLink l.Target index = false := by
          cases hx : resolveWikiLink l.Target index
          · rfl
          · exact absurd hx hr
        simp [hw, hr2, isWikiBroken_wikiRes]
    · by_cases hm : l.Kind = "markdown"
      · by_cases hr : resolveMarkdownLink cwd f.Path l.Target index = true
        · simp [hw, hm, hr]
        · have hr2 : resolveMarkdownLink cwd f.Path l.Target index = false := by
            cases hx : resolveMarkdownLink cwd f.Path l.Target index
            · rfl
            · exact absurd hx hr
          simp [hw, hm, hr2, isWikiBroken_mdRes]
      · simp [hw, hm]

/-- C7: wikilink resolution trims the target, rejects an empty target,
probes the Index with the slugified then the lowercased form, and the
Index keys are exactly the lowercased and slugified filename stems of
the loaded documents; the broken-wikilink findings are exactly one per
unresolved wikilink, at the link's line, naming the literal target. -/
theorem C7_wikilink_resolution (cwd : String) (files : List wikiFile) (f : wikiFile) :
    ((checkLinks cwd f (buildIndex files)).filter isWikiBroken =
      (f.Links.filter (fun l =>
        decide (l.Kind = "wikilink") && !resolveWikiLink l.Target (buildIndex files))).map
        (fun l => newResult "wiki-link-broken"
          ("broken wikilink [[" ++ l.Target ++ "]]") f.Path l.Line)) ∧
    (∀ target, resolveWikiLink target (buildIndex files) = true ↔
      (strTrim target ≠ "" ∧
        (mapHas (buildIndex files) (slugify (strTrim target)) = true ∨
          mapHas (buildIndex files) (strLower (strTrim target)) = true))) ∧
    (∀ k, mapHas (buildIndex files) k = true ↔
      ∃ g ∈ files, k = strLower (stemOf g.Path) ∨ k = slugify (stemOf g.Path)) :=
  ⟨checkLinks_filter_wiki cwd f (buildIndex files),
   fun target => resolveWikiLink_iff target (buildIndex files),
   fun k => mapHas_buildIndex files k⟩

/-- helper: the rule id of an orphan-tag finding. -/
theorem orphanResult_ruleID (occ : occurrence) :
    (orphanResult occ).RuleID = "wiki-tag-orphan" := rfl

/-- helper: the rule id of a case-variant finding. -/
theorem caseResult_ruleID (n : String) (occ : occurrence) :
    (caseResult n occ).RuleID = "wiki-tag-case-variant" := rfl

/-- helper: case-variant findings never pass the orphan filter. -/
theorem filter_caseResults_orphan (n : String) (l : List occurrence) :
    (l.map (caseResult n)).filter (fun r => decide (r.RuleID = "wiki-tag-orphan")) = [] := by
  induction l with
  | nil => rfl
  | cons o os ih => simp [List.filter_cons, caseResult_ruleID, ih]

/-- helper: case-variant findings all pass the case-variant filter. -/
theorem filter_caseResults_case (n : String) (l : List occurrence) :
    (l.map (caseResult n)).filter (fun r => decide (r.RuleID = "wiki-tag-case-variant")) =
      l.map (caseResult n) := by
  induction l with
  | nil => rfl
  | cons o os ih => simp [List.filter_cons, caseResult_ruleID, ih]

/-- helper: orphan filter of one tag group. -/
theorem tagGroup_filter_orphan (files : List wikiFile) (n : String) :
    (tagGroupResults files n).filter (fun r => decide (r.RuleID = "wiki-tag-orphan")) =
      (match occsOf files n with
       | [occ] => [orphanResult occ]
       | _ => []) := by
  unfold tagGroupResults
  rw [List.filter_append]
  have hcase : ((if (casingsOf files n).length > 1 then
      (occsOf files n).map (caseResult n) else []).filter
      (fun r => decide (r.RuleID = "wiki-tag-orphan"))) = [] := by
    split
    · exact filter_caseResults_orphan n (occsOf files n)
    · rfl
  rw [hcase, List.append_nil]
  cases hc : occsOf files n with
  | nil => rfl
  | cons occ tl =>
    cases tl with
    | nil => simp [List.filter_cons, orphanResult_ruleID]
    | cons o2 tl2 => rfl

/-- helper: case-variant filter of one tag group. -/
theorem tagGroup_filter_case (files : List wikiFile) (n : String) :
    (tagGroupResults files n).filter (fun r => decide (r.RuleID = "wiki-tag-case-variant")) =
      (if (casingsOf files n).length > 1 then (occsOf files n).map (caseResult n) else []) := by
  unfold tagGroupResults
  rw [List.filter_append]
  have horphan : ((match occsOf files n with
      | [occ] => [orphanResult occ]
      | _ => [] : List Result).filter
      (fun r => decide (r.RuleID = "wiki-tag-case-variant"))) = [] := by
    cases hc : occsOf files n with
    | nil => rfl
    | cons occ tl =>
      cases tl with
      | nil => simp [List.filter_cons, orphanResult_ruleID]
      | cons o2 tl2 => rfl
  rw [horphan, List.nil_append]
  split
  · exact filter_caseResults_case n (occsOf files n)
  · rfl

/-- C8: grouping tag occurrences by lowercased value, with any valid
map-iteration order: a singleton group yields exactly its one orphan
finding; a group with two or more distinct spellings yields exactly one
case-variant finding per occurrence, naming the occurrence's raw text
and the shared normalized form; each group is visited exactly once, and
the visited groups are exactly the nonempty ones. -/
theorem C8_tag_hygiene (files : List wikiFile) (order : List String)
    (h : validOrder files order) :
    ((checkTags files order).filter (fun r => decide (r.RuleID = "wiki-tag-orphan")) =
      order.flatMap (fun n =>
        match occsOf files n with
        | [occ] => [orphanResult occ]
        | _ => [])) ∧
    ((checkTags files order).filter (fun r => decide (r.RuleID = "wiki-tag-case-variant")) =
      order.flatMap (fun n =>
        if (casingsOf files n).length > 1 then (occsOf files n).map (caseResult n)
        else [])) ∧
    order.Nodup ∧
    (∀ n, n ∈ order ↔ occsOf files n ≠ []) := by
  refine ⟨?_, ?_, ?_, ?_⟩
  · clear h
    unfold checkTags
    induction order with
    | nil => rfl
    | cons n ns ih =>
      rw [List.flatMap_cons, List.flatMap_cons, List.filter_append, ih,
        tagGroup_filter_orphan]
  · clear h
    unfold checkTags
    induction order with
    | nil => rfl
    | cons n ns ih =>
      rw [List.flatMap_cons, List.flatMap_cons, List.filter_append, ih,
        tagGroup_filter_case]
  · exact h.nodup_iff.mpr (List.nodup_dedup _)
  · intro n
    rw [h.mem_iff]
    unfold normKeys
    rw [List.mem_dedup, List.mem_map]
    constructor
    · rintro ⟨o, ho, rfl⟩
      intro hnil
      have hmem : o ∈ (allOccs files).filter
          (fun o2 => decide (strLower o2.raw = strLower o.raw)) :=
        List.mem_filter.mpr ⟨ho, by simp⟩
      have hnil2 : (allOccs files).filter
          (fun o2 => decide (strLower o2.raw = strLower o.raw)) = [] := hnil
      rw [hnil2] at hmem
      exact absurd hmem (List.not_mem_nil o)
    · intro hne
      obtain ⟨o, ho⟩ := List.exists_mem_of_ne_nil _ hne
      have ho2 := List.mem_filter.mp ho
      exact ⟨o, ho2.1, by simpa using ho2.2⟩

/-- C8 witness: the grouping statement at the concrete two-orphan corpus. -/
theorem C8_witness :
    validOrder filesC2 ["beta", "alpha"] ∧
    ((checkTags filesC2 ["beta", "alpha"]).filter
        (fun r => decide (r.RuleID = "wiki-tag-orphan")) =
      (["beta", "alpha"] : List String).flatMap (fun n =>
        match occsOf filesC2 n with
        | [occ] => [orphanResult occ]
        | _ => [])) ∧
    ((checkTags filesC2 ["beta", "alpha"]).filter
        (fun r => decide (r.RuleID = "wiki-tag-case-variant")) =
      (["beta", "alpha"] : List String).flatMap (fun n =>
        if (casingsOf filesC2 n).length > 1 then (occsOf filesC2 n).map (caseResult n)
        else [])) ∧
    (["beta", "alpha"] : List String).Nodup ∧
    ("beta" ∈ (["beta", "alpha"] : List String) ↔ occsOf filesC2 "beta" ≠ []) :=
  ⟨by decide,
   (C8_tag_hygiene filesC2 ["beta", "alpha"] (by decide)).1,
   (C8_tag_hygiene filesC2 ["beta", "alpha"] (by decide)).2.1,
   (C8_tag_hygiene filesC2 ["beta", "alpha"] (by decide)).2.2.1,
   (C8_tag_hygiene filesC2 ["beta", "alpha"] (by decide)).2.2.2 "beta"⟩

/-- helper: evaluation of `Run` when collection fails. -/
theorem Run_error (cwd : String) (roots : List RootResult) (order : List String)
    (e : String) (hc : collectFiles roots = .error e) :
    Run cwd roots order = .error e := by
  unfold Run
  rw [hc]

/-- helper: evaluation of `Run` when collection succeeds. -/
theorem Run_ok (cwd : String) (roots : List RootResult) (order : List String)
    (files : List wikiFile) (hc : collectFiles roots = .ok files) :
    Run cwd roots order =
      .ok ⟨"2.1.0", "https://json.schemastore.org/sarif-2.1.0.json",
        [⟨⟨⟨"lintkit-wikifmt"⟩⟩,
          files.flatMap checkFrontmatter ++ checkTags files order ++
            files.flatMap (fun f => checkLinks cwd f (buildIndex files))⟩]⟩ := by
  unfold Run
  rw [hc]

/-- helper: `newResult` always assigns the level of its rule. -/
theorem ruleOK_newResult (rule msg path : String) (line : Nat)
    (h : rule ∈ hardRules ++ hygieneRules) : ruleOK (newResult rule msg path line) :=
  ⟨h, rfl⟩

/-- helper: every finding of the required-key block is well-ruled. -/
theorem ruleOK_requiredResults {f : wikiFile} {r : Result}
    (h : r ∈ requiredResults f) : ruleOK r := by
  unfold requiredResults at h
  rcases List.mem_append.mp h with h2 | h2
  · rcases List.mem_append.mp h2 with h3 | h3
    · split at h3
      · rw [List.mem_singleton] at h3
        subst h3
        exact ruleOK_newResult _ _ _ _ (by decide)
      · exact absurd h3 (List.not_mem_nil r)
    · split at h3
      · rw [List.mem_singleton] at h3
        subst h3
        exact ruleOK_newResult _ _ _ _ (by decide)
      · split at h3
        · rw [List.mem_singleton] at h3
          subst h3
          exact ruleOK_newResult _ _ _ _ (by decide)
        · exact absurd h3 (List.not_mem_nil r)
  · split at h2
    · rw [List.mem_singleton] at h2
      subst h2
      exact ruleOK_newResult _ _ _ _ (by decide)
    · exact absurd h2 (List.not_mem_nil r)

/-- helper: every finding of `checkFrontmatter` is well-ruled. -/
theorem ruleOK_checkFrontmatter {f : wikiFile} {r : Result}
    (h : r ∈ checkFrontmatter f) : ruleOK r := by
  cases hfe : f.FrontmatterErr with
  | none =>
    rw [checkFrontmatter_none f hfe] at h
    exact ruleOK_requiredResults h
  | some e =>
    rw [checkFrontmatter_some f e hfe] at h
    split at h
    · rcases List.mem_cons.mp h with h2 | h2
      · subst h2
        exact ruleOK_newResult _ _ _ _ (by decide)
      · exact ruleOK_requiredResults h2
    · rw [List.mem_singleton] at h
      subst h
      exact ruleOK_newResult _ _ _ _ (by decide)

/-- helper: every finding of `checkLinks` is well-ruled. -/
theorem ruleOK_checkLinks {cwd : String} {f : wikiFile} {index : GoMap} {r : Result}
    (h : r ∈ checkLinks cwd f index) : ruleOK r := by
  unfold checkLinks at h
  obtain ⟨l, _, hm⟩ := List.mem_flatMap.mp h
  split at hm
  · split at hm
    · rw [List.mem_singleton] at hm
      subst hm
      exact ruleOK_newResult _ _ _ _ (by decide)
    · exact absurd hm (List.not_mem_nil r)
  · split at hm
    · split at hm
      · rw [List.mem_singleton] at hm
        subst hm
        exact ruleOK_newResult _ _ _ _ (by decide)
      · exact absurd hm (List.not_mem_nil r)
    · exact absurd hm (List.not_mem_nil r)

/-- helper: every finding of a tag group is well-ruled. -/
theorem ruleOK_tagGroup {files : List wikiFile} {n : String} {r : Result}
    (h : r ∈ tagGroupResults files n) : ruleOK r := by
  unfold tagGroupResults at h
  rcases List.mem_append.mp h with h2 | h2
  · split at h2
    · rw [List.mem_singleton] at h2
      subst h2
      exact ruleOK_newResult _ _ _ _ (by decide)
    · exact absurd h2 (List.not_mem_nil r)
  · split at h2
    · obtain ⟨occ, _, hocc⟩ := List.mem_map.mp h2
      subst hocc
      exact ruleOK_newResult _ _ _ _ (by decide)
    · exact absurd h2 (List.not_mem_nil r)

/-- helper: every finding of `checkTags` is well-ruled. -/
theorem ruleOK_checkTags {files : List wikiFile} {order : List String} {r : Result}
    (h : r ∈ checkTags files order) : ruleOK r := by
  unfold checkTags at h
  obtain ⟨n, _, hm⟩ := List.mem_flatMap.mp h
  exact ruleOK_tagGroup hm

/-- C9: every finding in a produced report has level `error` exactly for
the four hard-invariant rules and `warning` exactly for the two hygiene
rules, and no other level occurs. -/
theorem C9_severity_mapping (cwd : String) (roots : List RootResult)
    (order : List String) (log : Log) (hlog : Run cwd roots order = .ok log)
    (run : Sarif.Run) (hrun : run ∈ log.Runs) (r : Result) (hr : r ∈ run.Results) :
    (r.Level = "error" ↔ r.RuleID ∈ hardRules) ∧
    (r.Level = "warning" ↔ r.RuleID ∈ hygieneRules) ∧
    (r.Level = "error" ∨ r.Level = "warning") := by
  have hOK : ruleOK r := by
    cases hc : collectFiles roots with
    | error e =>
      rw [Run_error cwd roots order e hc] at hlog
      exact absurd hlog (by simp)
    | ok files =>
      rw [Run_ok cwd roots order files hc] at hlog
      have hlogeq := Except.ok.inj hlog
      subst hlogeq
      rw [List.mem_singleton] at hrun
      subst hrun
      rcases List.mem_append.mp hr with h2 | h2
      · rcases List.mem_append.mp h2 with h3 | h3
        · obtain ⟨f, _, hm⟩ := List.mem_flatMap.mp h3
          exact ruleOK_checkFrontmatter hm
        · exact ruleOK_checkTags h3
      · obtain ⟨f, _, hm⟩ := List.mem_flatMap.mp h2
        exact ruleOK_checkLinks hm
  obtain ⟨hmem, hlvl⟩ := hOK
  have hmem2 : r.RuleID = "wiki-frontmatter-yaml" ∨ r.RuleID = "wiki-frontmatter-required" ∨
      r.RuleID = "wiki-date-format" ∨ r.RuleID = "wiki-link-broken" ∨
      r.RuleID = "wiki-tag-orphan" ∨ r.RuleID = "wiki-tag-case-variant" := by
    simpa [hardRules, hygieneRules] using hmem
  rcases hmem2 with h | h | h | h | h | h <;> rw [hlvl, h] <;> exact by decide

/-- C9 witness: the mapping at a concrete broken-link finding. -/
theorem C9_witness :
    Run "/w" rootsC9 [] = .ok logC9 ∧
    runC9 ∈ logC9.Runs ∧
    resC9 ∈ runC9.Results ∧
    ((resC9.Level = "error" ↔ resC9.RuleID ∈ hardRules) ∧
      (resC9.Level = "warning" ↔ resC9.RuleID ∈ hygieneRules) ∧
      (resC9.Level = "error" ∨ resC9.Level = "warning")) :=
  ⟨rfl, by decide, by decide,
   C9_severity_mapping "/w" rootsC9 [] logC9 rfl runC9 (by decide) resC9 (by decide)⟩

/-- C10: markdown-link resolution through the Index keys depends only on
the filename stem of the joined-and-cleaned target: whenever the
lowercased or slugified stem of that path matches an Index key derived
from any loaded document, the link resolves, regardless of the
directories involved and without consulting the filesystem. -/
theorem C10_markdown_stem_resolution (cwd currentPath target : String)
    (files : List wikiFile) (hne : target ≠ "")
    (hstem : ∃ g ∈ files,
      strLower (stemOf (goClean (goJoin2 (goDir currentPath) (strDropPfx "/" target)))) =
          strLower (stemOf g.Path) ∨
        strLower (stemOf (goClean (goJoin2 (goDir currentPath) (strDropPfx "/" target)))) =
          slugify (stemOf g.Path) ∨
        slugify (stemOf (goClean (goJoin2 (goDir currentPath) (strDropPfx "/" target)))) =
          strLower (stemOf g.Path) ∨
        slugify (stemOf (goClean (goJoin2 (goDir currentPath) (strDropPfx "/" target)))) =
          slugify (stemOf g.Path)) :
    resolveMarkdownLink cwd currentPath target (buildIndex files) = true := by
  unfold resolveMarkdownLink
  rw [if_neg hne]
  have hor : mapHas (buildIndex files)
        (strLower (stemOf (goClean (goJoin2 (goDir currentPath)
          (strDropPfx "/" target))))) = true ∨
      mapHas (buildIndex files)
        (slugify (stemOf (goClean (goJoin2 (goDir currentPath)
          (strDropPfx "/" target))))) = true := by
    obtain ⟨g, hg, hc⟩ := hstem
    rcases hc with h | h | h | h
    · exact Or.inl ((mapHas_buildIndex files _).mpr ⟨g, hg, Or.inl h⟩)
    · exact Or.inl ((mapHas_buildIndex files _).mpr ⟨g, hg, Or.inr h⟩)
    · exact Or.inr ((mapHas_buildIndex files _).mpr ⟨g, hg, Or.inl h⟩)
    · exact Or.inr ((mapHas_buildIndex files _).mpr ⟨g, hg, Or.inr h⟩)
  rcases hor with h | h
  · simp [h]
  · simp [h]

/-- C10 witness: a deep relative path that exists nowhere still resolves
because its stem matches a loaded document's stem. -/
theorem C10_witness :
    ("../nowhere/Guide.md" : String) ≠ "" ∧
    strLower (stemOf (goClean (goJoin2 (goDir "notes/x.md")
        (strDropPfx "/" "../nowhere/Guide.md")))) =
      strLower (stemOf (parseFile "docs/guide.md" cGuide).Path) ∧
    resolveMarkdownLink "/w" "notes/x.md" "../nowhere/Guide.md" (buildIndex filesC10) = true :=
  ⟨by decide, by decide,
   C10_markdown_stem_resolution "/w" "notes/x.md" "../nowhere/Guide.md" filesC10
     (by decide)
     ⟨parseFile "docs/guide.md" cGuide, by decide, Or.inl (by decide)⟩⟩

end Wikifmt
